import Mathlib

/-!
Shallow embedding of the zklink-oracle RedStone verification core
(`src/gadgets/utils.rs` and `src/redstone/circuit.rs`) over byte values.

Circuit wires are modelled by the values they carry in a satisfied
assignment: a `Byte<E>` wire is a `Nat` below 256, a `Boolean` wire is a
`Bool`, a `UInt256<E>` wire is a `Nat` below 2^256, and the constraint
system handle `cs` is dropped (it never influences computed values).
Fallible Rust paths are modelled with `Except Failure`, distinguishing a
typed `SynthesisError` return from a Rust panic and from an `assert!`
failure.

External collaborators that are repository code not under `src/`
(the keccak digest gadget, the ECDSA gadgets, the Ethereum address
gadget, the plaintext RedStone data-package layer) are modelled from the
spec, each marked `Modelled from the spec:` at its definition.
-/

set_option maxRecDepth 100000

namespace ZkOracle

/-- Kinds of failure a Rust function in this code base can exhibit:
a typed `SynthesisError` returned with `Err`, an `assert!` failure, or a
runtime panic (`unwrap`, slice index out of bounds, integer underflow). -/
inductive Failure where
  | synthesisErr (msg : String)
  | assertFailed (msg : String)
  | runtimePanic (msg : String)
  deriving DecidableEq, Repr

/-- Result of a fallible Rust computation. -/
abbrev RResult (α : Type) := Except Failure α

/-- Big-endian value of a byte string. -/
def beVal (bs : List Nat) : Nat := bs.foldl (fun a b => a * 256 + b) 0

/-- Big-endian encoding of `v` into exactly `n` bytes. -/
def natToBeBytes (n v : Nat) : List Nat :=
  (List.range n).map (fun i => (v >>> (8 * (n - 1 - i))) &&& 255)

/-- Right-pad a byte string with zeros to length `n`. -/
def padRight (bs : List Nat) (n : Nat) : List Nat :=
  bs ++ List.replicate (n - bs.length) 0

/-! ## Keccak-256

Modelled from the spec: the digest gadget `crate::gadgets::keccak256::digest`
is repository code not under `src/`; the spec fixes it to be Keccak-256
over the byte string, so we embed standard Keccak-256 (rate 136,
multi-rate padding byte 0x01). The state is the flat list of the 25
lanes, lane `(x, y)` at index `x + 5 * y`, each lane a 64-bit value. -/

/-- Round constants of Keccak-f[1600], as decimal 64-bit values. -/
def keccakRC : List Nat :=
  [1, 32898, 9223372036854808714,
   9223372039002292224, 32907, 2147483649,
   9223372039002292353, 9223372036854808585, 138,
   136, 2147516425, 2147483658,
   2147516555, 9223372036854775947, 9223372036854808713,
   9223372036854808579, 9223372036854808578, 9223372036854775936,
   32778, 9223372039002259466, 9223372039002292353,
   9223372036854808704, 2147483649, 9223372039002292232]

/-- Association list of rho rotation offsets: walking `(x, y)` from
`(1, 0)` by `(x, y) ↦ (y, 2x + 3y mod 5)`, step `t` assigns offset
`(t+1)(t+2)/2 mod 64` to the lane at flat index `x + 5 * y`. -/
def keccakRotAssoc : List (Nat × Nat) :=
  (((List.range 24).foldl
    (fun acc t =>
      let x := acc.2.1
      let y := acc.2.2
      ((x + 5 * y, (t + 1) * (t + 2) / 2 % 64) :: acc.1, y, (2 * x + 3 * y) % 5))
    ([], 1, 0))).1

/-- Rotation offsets, flat at index `x + 5 * y` (the lane at index 0
keeps offset 0). -/
def keccakRot : List Nat :=
  (List.range 25).map (fun i =>
    ((keccakRotAssoc.find? (fun p => p.1 = i)).map Prod.snd).getD 0)

/-- Rotate a 64-bit value left by `n` (0 ≤ n < 64). -/
def rol64 (x n : Nat) : Nat :=
  ((x <<< n) ||| (x >>> (64 - n))) &&& 0xFFFFFFFFFFFFFFFF

/-- Lane `(x, y)` of a Keccak state (coordinates taken mod 5). -/
def lane (A : List Nat) (x y : Nat) : Nat := A.getD (x % 5 + 5 * (y % 5)) 0

/-- Theta step of Keccak-f. -/
def theta (A : List Nat) : List Nat :=
  let C := (List.range 5).map
    (fun x => lane A x 0 ^^^ lane A x 1 ^^^ lane A x 2 ^^^ lane A x 3 ^^^ lane A x 4)
  let D := (List.range 5).map
    (fun x => C.getD ((x + 4) % 5) 0 ^^^ rol64 (C.getD ((x + 1) % 5) 0) 1)
  (List.range 25).map (fun i => A.getD i 0 ^^^ D.getD (i % 5) 0)

/-- Combined rho and pi steps: output lane `(x', y')` is the input lane
`(x' + 3 y', x')` rotated by its offset. -/
def rhoPi (A : List Nat) : List Nat :=
  (List.range 25).map (fun j =>
    let xp := j % 5
    let yp := j / 5
    let x := (xp + 3 * yp) % 5
    let y := xp
    rol64 (lane A x y) (keccakRot.getD (x + 5 * y) 0))

/-- Chi step of Keccak-f. -/
def chi (B : List Nat) : List Nat :=
  (List.range 25).map (fun j =>
    let x := j % 5
    let y := j / 5
    lane B x y ^^^ ((0xFFFFFFFFFFFFFFFF ^^^ lane B (x + 1) y) &&& lane B (x + 2) y))

/-- One round of Keccak-f[1600] with round constant `rc`. -/
def keccakRound (A : List Nat) (rc : Nat) : List Nat :=
  match chi (rhoPi (theta A)) with
  | [] => []
  | b0 :: rest => (b0 ^^^ rc) :: rest

/-- Keccak-f[1600] permutation. -/
def keccakF (A : List Nat) : List Nat := keccakRC.foldl keccakRound A

/-- Little-endian value of up to eight bytes. -/
def bytesToLane (bs : List Nat) : Nat := bs.foldr (fun b acc => acc * 256 + b) 0

/-- Little-endian bytes of a 64-bit lane. -/
def laneToBytes (x : Nat) : List Nat :=
  (List.range 8).map (fun i => (x >>> (8 * i)) &&& 255)

/-- Absorb one 136-byte block into the state and permute. -/
def absorbBlock (A : List Nat) (block : List Nat) : List Nat :=
  keccakF ((List.range 25).map (fun i =>
    if i < 17 then A.getD i 0 ^^^ bytesToLane ((block.drop (8 * i)).take 8)
    else A.getD i 0))

/-- Split a byte string into 136-byte blocks (`fuel`-bounded recursion). -/
def blocks136 : Nat → List Nat → List (List Nat)
  | 0, _ => []
  | _, [] => []
  | fuel + 1, l => l.take 136 :: blocks136 fuel (l.drop 136)

/-- Multi-rate padding of Keccak (pad byte 0x01, final bit 0x80). -/
def keccakPad (msg : List Nat) : List Nat :=
  let padlen := 136 - msg.length % 136
  if padlen = 1 then msg ++ [0x81]
  else msg ++ [0x01] ++ List.replicate (padlen - 2) 0 ++ [0x80]

/-- Keccak-256 digest of a byte string, as 32 bytes. -/
def keccak256 (msg : List Nat) : List Nat :=
  let padded := keccakPad msg
  let A := (blocks136 padded.length padded).foldl absorbBlock (List.replicate 25 0)
  ((A.take 4).map laneToBytes).flatten

example : keccak256 [] =
    [0xc5, 0xd2, 0x46, 0x01, 0x86, 0xf7, 0x23, 0x3c, 0x92, 0x7e, 0x7d, 0xb2,
     0xdc, 0xc7, 0x03, 0xc0, 0xe5, 0x00, 0xb6, 0x53, 0xca, 0x82, 0x27, 0x3b,
     0x7b, 0xfa, 0xd8, 0x04, 0x5d, 0x85, 0xa4, 0x70] := by decide

/-! ## Models of third-party crates used by `src/gadgets/utils.rs` -/

/-- Lowercase hex digit for a value below 16. -/
def hexDigitChar (n : Nat) : Char :=
  if n < 10 then Char.ofNat (48 + n) else Char.ofNat (97 + (n - 10))

/-- Value of a hex digit accepted by the `hex` crate
(`0-9`, `a-f`, `A-F`), or `none`. -/
def hexCharVal (c : Char) : Option Nat :=
  if '0' ≤ c ∧ c ≤ '9' then some (c.toNat - 48)
  else if 'a' ≤ c ∧ c ≤ 'f' then some (c.toNat - 87)
  else if 'A' ≤ c ∧ c ≤ 'F' then some (c.toNat - 55)
  else none

/-- Hex decoding of a character list: pairs of hex digits, failing on an
odd length or a non-hex character (the `hex::decode` behavior). -/
def hexDecodeChars : List Char → Option (List Nat)
  | [] => some []
  | [_] => none
  | hi :: lo :: rest =>
    match hexCharVal hi, hexCharVal lo, hexDecodeChars rest with
    | some h, some l, some bs => some ((16 * h + l) :: bs)
    | _, _, _ => none

/-- Hex decoding of a string (model of `hex::decode`). -/
def hexDecode (s : String) : Option (List Nat) := hexDecodeChars s.data

/-- Digit value used by `num_bigint`'s string parser (which walks the
UTF-8 bytes): ASCII digits map to their value, ASCII letters (either
case) map to 10 and above, anything else is invalid. A non-ASCII
character stands for UTF-8 continuation bytes, which are invalid too. -/
def bigDigitVal (c : Char) : Option Nat :=
  if 48 ≤ c.toNat ∧ c.toNat ≤ 57 then some (c.toNat - 48)
  else if 97 ≤ c.toNat ∧ c.toNat ≤ 122 then some (c.toNat - 97 + 10)
  else if 65 ≤ c.toNat ∧ c.toNat ≤ 90 then some (c.toNat - 65 + 10)
  else none

/-- One step of the radix-10 digit fold of `num_bigint`: underscores are
skipped, a digit value at least 10 or an invalid character poisons the
parse. -/
def bigUintStep (acc : Option Nat) (c : Char) : Option Nat :=
  match acc with
  | none => none
  | some a =>
    if c = '_' then some a
    else
      match bigDigitVal c with
      | some d => if d < 10 then some (10 * a + d) else none
      | none => none

/-- Strip a single leading plus sign, unless a second plus follows (the
prefix handling of `num_bigint::BigUint::from_str_radix`). -/
def stripLeadingPlus (l : List Char) : List Char :=
  match l with
  | [] => []
  | c :: rest => if c = '+' ∧ rest.head? ≠ some '+' then rest else c :: rest

/-- Model of `num_bigint::BigUint::from_str` (radix 10): strips a single
leading plus sign, rejects the empty string and a leading underscore,
skips interior underscores, and folds decimal digits; any other
character is a parse error. -/
def bigUintFromStr (s : String) : Option Nat :=
  let cs : List Char := stripLeadingPlus s.data
  if cs.isEmpty then none
  else if cs.head? = some '_' then none
  else cs.foldl bigUintStep (some 0)

example : bigUintFromStr "20000" = some 20000 := by decide
example : bigUintFromStr "+17" = some 17 := by decide
example : bigUintFromStr "1_000" = some 1000 := by decide
example : bigUintFromStr "" = none := by decide
example : bigUintFromStr "12a" = none := by decide
example : bigUintFromStr "_1" = none := by decide

/-! ## Embedding of `src/gadgets/utils.rs`

The field of the engine `E` is modelled by its modulus `p`; the
`PrimeField` constant `NUM_BITS` is the bit length of `p` and `CAPACITY`
is `NUM_BITS - 1`, which for a modulus above 1 equals `Nat.log2 p`. -/

/-- Bit length of a natural number below `2 ^ fuel` (structural
recursion on the fuel so that the kernel can evaluate it). -/
def bitLenAux : Nat → Nat → Nat
  | 0, _ => 0
  | fuel + 1, n => if n = 0 then 0 else bitLenAux fuel (n / 2) + 1

/-- Bit length of a field modulus (the `PrimeField::NUM_BITS` constant);
512 bits of fuel cover every modulus in scope. -/
def fieldNumBits (p : Nat) : Nat := bitLenAux 512 p

/-- Capacity, in bits, of a prime field with modulus `p`
(the `PrimeField::CAPACITY` constant, `NUM_BITS - 1`). -/
def fieldCapacity (p : Nat) : Nat := fieldNumBits p - 1

/-- Modulus of the BN254 scalar field `Fr`, the field the circuits of
this repository are built over. -/
def bn254Fr : Nat :=
  21888242871839275222246405745257275088548364400416034343698204186575808495617

/-- Embedding of `bytes_be_to_num` from `src/gadgets/utils.rs`: asserts
`hash.len() <= CAPACITY`, left-pads the bytes to 32 in a zeroed buffer
(`bytes[(32 - len)..].copy_from_slice(hash)`, which panics when
`len > 32` because `32 - len` underflows), interprets the 32 bytes as a
big-endian 256-bit integer, and casts it down to a field element with
`to_num_unchecked`. Modelled from the spec: `UInt256::to_num_unchecked`
is external; per the spec it casts the 256-bit value down to the field,
that is, reduces it modulo `p`. -/
def bytes_be_to_num (p : Nat) (hash : List Nat) : RResult Nat :=
  let len := hash.length
  if len ≤ fieldCapacity p then
    if len ≤ 32 then Except.ok (beVal hash % p)
    else Except.error (Failure.runtimePanic "32 - len underflows")
  else Except.error (Failure.assertFailed "len <= CAPACITY")

/-- Little-endian byte chunks of a 256-bit value, 32 of them. -/
def u8ChunksLE (v : Nat) : List Nat :=
  (List.range 32).map (fun i => (v >>> (8 * i)) &&& 255)

/-- Embedding of `uint256_and_u8_chunks_from_str` from
`src/gadgets/utils.rs`: parses the string with `BigUint::from_str`,
mapping a parse error to a typed `SynthesisError`, then allocates the
value as a `UInt256` together with its 32 byte chunks. Modelled from the
spec: `UInt256::alloc_from_biguint_and_return_u8_chunks` is external;
per the spec it yields the unsigned 256-bit integer witness and its 32
individual byte components; its behavior on values of 2^256 and above is
outside every claim and modelled as a panic. -/
def uint256_and_u8_chunks_from_str (s : String) : RResult (Nat × List Nat) :=
  match bigUintFromStr s with
  | none => Except.error (Failure.synthesisErr "BigUint parse error")
  | some v =>
    if v < 2 ^ 256 then Except.ok (v, u8ChunksLE v)
    else Except.error (Failure.runtimePanic "value does not fit in 256 bits")

/-- Embedding of `uint256_from_str` from `src/gadgets/utils.rs`. -/
def uint256_from_str (s : String) : RResult Nat :=
  return (← uint256_and_u8_chunks_from_str s).1

/-- Embedding of `uint256_from_be_hex_str` from `src/gadgets/utils.rs`:
`hex::decode(str).unwrap()` panics on a malformed hex string, the
`try_into().unwrap()` into `[Byte<E>; 32]` panics when the decoded
length is not 32, and otherwise the 32 constant bytes are read
big-endian into a `UInt256`. -/
def uint256_from_be_hex_str (s : String) : RResult Nat :=
  match hexDecode s with
  | none => Except.error (Failure.runtimePanic "hex decode unwrap")
  | some bytes =>
    if bytes.length = 32 then Except.ok (beVal bytes)
    else Except.error (Failure.runtimePanic "try_into unwrap")

/-- Embedding of `bytes_to_hex` from `src/gadgets/utils.rs`: lowercase
hex rendering of the revealed byte values. -/
def bytes_to_hex (bytes : List Nat) : String :=
  String.mk ((bytes.map (fun b => [hexDigitChar (b / 16), hexDigitChar (b % 16)])).flatten)

example : bytes_to_hex [0xe2, 0x7c] = "e27c" := by decide
example : hexDecode "e27c" = some [0xe2, 0x7c] := by decide

/-! ## Plaintext RedStone layer

Modelled from the spec: `src/redstone/types.rs` (the plaintext
`DataPoint` / `DataPackage` model with its canonical sort order and
fixed-width serialization routines) and the width constants of
`src/redstone/mod.rs` are repository code not under `src/`. The spec
fixes the shape (feed id encoded to a fixed 32-byte field, value to a
protocol-fixed byte width, fixed-width timestamp, data-point count and
value byte-width, canonical sort before serialization); the concrete
widths (value 32, timestamp 6, byte-size field 4, count 3) and the
decimal scaling of values by 10^8 are pinned by the repository's own
test vector in `src/redstone/circuit.rs` (`test_serialize_and_hash`),
which this model reproduces exactly. Symbols are ASCII, and the test
fixtures use integer-valued decimal strings, the only case this model
needs. -/

/-- Byte width of a serialized data-point value (`DEFAULT_NUM_VALUE_BS`). -/
def DEFAULT_NUM_VALUE_BS : Nat := 32

/-- Byte width of a serialized timestamp (`TIMESTAMP_BS`). -/
def TIMESTAMP_BS : Nat := 6

/-- Byte width of the serialized data-point count (`DATA_POINTS_COUNT_BS`). -/
def DATA_POINTS_COUNT_BS : Nat := 3

/-- Byte width of the serialized value byte-size field
(`DATA_POINT_VALUE_BYTE_SIZE_BS`). -/
def DATA_POINT_VALUE_BYTE_SIZE_BS : Nat := 4

/-- Plaintext data point: one (feed identifier, decimal value string)
observation, as built by `DataPoint::new`. -/
structure DataPoint where
  data_feed_id : String
  value : String
  deriving DecidableEq, Repr

/-- Decimal value of a digit string (digits-only model). -/
def decVal (s : String) : Nat := s.data.foldl (fun a c => 10 * a + (c.toNat - 48)) 0

/-- Modelled from the spec: `DataPoint::serialize_feed_id` encodes the
feed identifier into a fixed 32-byte field, the ASCII bytes of the
symbol right-padded with zeros. -/
def DataPoint.serialize_feed_id (dp : DataPoint) : List Nat :=
  padRight (dp.data_feed_id.data.map Char.toNat) 32

/-- Modelled from the spec: `DataPoint::serialize_value` encodes the
decimal value, scaled by the protocol's 10^8 multiplier, as a 32-byte
big-endian integer. -/
def DataPoint.serialize_value (dp : DataPoint) : List Nat :=
  natToBeBytes DEFAULT_NUM_VALUE_BS (decVal dp.value * 10 ^ 8)

/-- Plaintext data package: an ordered collection of data points and an
epoch-milliseconds timestamp, as built by `DataPackage::new`. -/
structure DataPackage where
  data_points : List DataPoint
  timestamp : Nat
  deriving DecidableEq, Repr

/-- Modelled from the spec: `DataPackage::serialize_timestamp`, the
timestamp as a fixed-width big-endian integer. -/
def DataPackage.serialize_timestamp (w : DataPackage) : List Nat :=
  natToBeBytes TIMESTAMP_BS w.timestamp

/-- Modelled from the spec: `DataPackage::serialize_data_points_count`,
the number of data points as a fixed-width big-endian integer. -/
def DataPackage.serialize_data_points_count (w : DataPackage) : List Nat :=
  natToBeBytes DATA_POINTS_COUNT_BS w.data_points.length

/-- Modelled from the spec:
`DataPackage::serialize_default_data_point_byte_size`, the configured
value byte-width as a fixed-width big-endian integer. -/
def DataPackage.serialize_default_data_point_byte_size (_ : DataPackage) : List Nat :=
  natToBeBytes DATA_POINT_VALUE_BYTE_SIZE_BS DEFAULT_NUM_VALUE_BS

/-- Sort key of a data point: its serialized bytes, read as one
big-endian integer. Two data points have the same key exactly when they
serialize identically. -/
def dpKey (dp : DataPoint) : Nat :=
  beVal (dp.serialize_feed_id ++ dp.serialize_value)

/-- Modelled from the spec: `DataPackage::sorted_data_points` returns
the data points in the protocol's canonical sorted order; modelled as
sorting by the serialized bytes of each data point. -/
def DataPackage.sorted_data_points (w : DataPackage) : List DataPoint :=
  w.data_points.insertionSort (fun a b => dpKey a ≤ dpKey b)

instance : IsTotal DataPoint (fun a b => dpKey a ≤ dpKey b) :=
  ⟨fun _ _ => Nat.le_total _ _⟩

instance : IsTrans DataPoint (fun a b => dpKey a ≤ dpKey b) :=
  ⟨fun _ _ _ => Nat.le_trans⟩

/-- Well-formed data point per the spec's data-model invariant: the
feed identifier fits the fixed 32-byte field, its characters being
single bytes. -/
def DataPoint.wf (dp : DataPoint) : Prop :=
  dp.data_feed_id.data.length ≤ 32 ∧ ∀ c ∈ dp.data_feed_id.data, c.toNat < 256

instance (dp : DataPoint) : Decidable dp.wf := by
  unfold DataPoint.wf; infer_instance

/-! ## Embedding of `src/redstone/circuit.rs`

Byte wires carry their byte values; allocation of a witness byte array
(`CSAllocatable::alloc_from_witness`) is value-preserving, so a wire
array is just the byte list it was allocated from. -/

/-- In-circuit data point (`CircuitDataPoint`): 32 feed-id byte wires
and `DEFAULT_NUM_VALUE_BS` value byte wires. -/
structure CircuitDataPoint where
  data_feed_id : List Nat
  value : List Nat
  deriving DecidableEq, Repr

/-- Embedding of `CircuitDataPoint::from_witness`: allocates the
serialized feed id and the serialized value of the plaintext point. -/
def CircuitDataPoint.from_witness (w : DataPoint) : CircuitDataPoint :=
  { data_feed_id := w.serialize_feed_id
    value := w.serialize_value }

/-- Embedding of `CircuitDataPoint::serialize`: extends an empty buffer
with the feed-id bytes, then the value bytes. -/
def CircuitDataPoint.serialize (p : CircuitDataPoint) : List Nat :=
  [] ++ p.data_feed_id ++ p.value

/-- In-circuit data package (`CircuitDataPackage`). -/
structure CircuitDataPackage where
  data_points : List CircuitDataPoint
  timestamp : List Nat
  data_points_count : List Nat
  default_data_point_value_byte_size : List Nat
  deriving DecidableEq, Repr

/-- Embedding of `CircuitDataPackage::from_witness`: allocates the
serialized timestamp, data-point count and value byte-size, and each
data point of `witness.sorted_data_points()` in order. -/
def CircuitDataPackage.from_witness (w : DataPackage) : CircuitDataPackage :=
  { data_points := w.sorted_data_points.map CircuitDataPoint.from_witness
    timestamp := w.serialize_timestamp
    data_points_count := w.serialize_data_points_count
    default_data_point_value_byte_size := w.serialize_default_data_point_byte_size }

/-- Embedding of `CircuitDataPackage::serialize`: extends an empty
buffer with each data point's serialization in package order, then the
timestamp, then the value byte-size field, then the data-point count. -/
def CircuitDataPackage.serialize (p : CircuitDataPackage) : List Nat :=
  let bytes := p.data_points.foldl (fun acc dp => acc ++ dp.serialize) []
  bytes ++ p.timestamp ++ p.default_data_point_value_byte_size ++ p.data_points_count

/-- Embedding of `CircuitDataPackage::keccak256_hash`: the digest gadget
applied to the serialization. -/
def CircuitDataPackage.keccak256_hash (p : CircuitDataPackage) : List Nat :=
  keccak256 p.serialize

/-- Allocated ECDSA signature wires (`crate::gadgets::ecdsa::Signature`):
32-byte `r`, 32-byte `s` and the recovery-id byte `v`. Modelled from the
spec: `src/gadgets/ecdsa.rs` is repository code not under `src/`; the
spec fixes the 65-byte layout `r[32] || s[32] || v[1]`. -/
structure Signature where
  r : List Nat
  s : List Nat
  v : Nat
  deriving DecidableEq, Repr

instance : Inhabited Signature := ⟨⟨[], [], 0⟩⟩

/-- Modelled from the spec: `Signature::from_bytes_witness` allocates a
65-byte witness as `r` (bytes 0..32), `s` (bytes 32..64) and the
recovery id (byte 64). -/
def Signature.from_bytes_witness (bytes : List Nat) : Signature :=
  { r := bytes.take 32
    s := (bytes.drop 32).take 32
    v := bytes.getD 64 0 }

/-- Allocated 20-byte Ethereum address wires
(`crate::gadgets::ethereum::Address`). Modelled from the spec:
`src/gadgets/ethereum.rs` is repository code not under `src/`. -/
structure Address where
  bytes : List Nat
  deriving DecidableEq, Repr

instance : Inhabited Address := ⟨⟨[]⟩⟩

/-- Modelled from the spec: `Address::from_address_wtiness` allocates
the 20 witness bytes as address wires. -/
def Address.from_address_wtiness (w : List Nat) : Address := ⟨w⟩

/-- Modelled from the spec: `Address::from_pubkey` derives the address
as the last 20 bytes of the Keccak-256 digest of the uncompressed
public key's coordinates `x || y`. -/
def Address.from_pubkey (x y : List Nat) : Address :=
  ⟨(keccak256 (x ++ y)).drop 12⟩

/-- Modelled from the spec: `Address::equals`, the in-circuit equality
bit of two addresses. -/
def Address.equals (a b : Address) : Bool := a.bytes == b.bytes

/-- Environment supplying the external ECDSA-recovery gadget
(`Signature::ecrecover` of the missing `src/gadgets/ecdsa.rs`): from the
signature wires and the 256-bit message hash it yields a success flag
and the recovered public-key coordinates `(x, y)` as 256-bit values.
Its number theory is outside the embedded source, so the claims about
`src/redstone/circuit.rs` are proved for every such environment. -/
structure Env where
  ecrecover : Signature → Nat → Bool × Nat × Nat

/-- In-circuit signed data package (`CircuitSignedDataPackage`). -/
structure CircuitSignedDataPackage where
  data_package : CircuitDataPackage
  signature : Signature
  deriving DecidableEq, Repr

instance : Inhabited CircuitSignedDataPackage :=
  ⟨⟨⟨[], [], [], []⟩, default⟩⟩

/-- Embedding of `CircuitSignedDataPackage::from_witness`: allocates the
data package, then normalizes the trailing recovery-id byte of the
65-byte signature witness (`if signature[64] >= 27 { signature[64] -=
27 }`) before allocating the signature wires. -/
def CircuitSignedDataPackage.from_witness (data_package : DataPackage)
    (signature : List Nat) : CircuitSignedDataPackage :=
  let dp := CircuitDataPackage.from_witness data_package
  let b := signature.getD 64 0
  let signature := if 27 ≤ b then signature.set 64 (b - 27) else signature
  { data_package := dp
    signature := Signature.from_bytes_witness signature }

/-- Embedding of `CircuitSignedDataPackage::ecrecover`: digests the
package serialization, reads the 32 digest bytes big-endian as the
message hash, and invokes the external recovery gadget. -/
def CircuitSignedDataPackage.ecrecover (env : Env)
    (p : CircuitSignedDataPackage) : Bool × Nat × Nat :=
  let msg_hash := beVal (keccak256 p.data_package.serialize)
  env.ecrecover p.signature msg_hash

/-- Address recovered inside `check_by_address`: the recovered
coordinates rendered as 32 big-endian bytes each and fed to
`Address::from_pubkey`. -/
def CircuitSignedDataPackage.recovered_address (env : Env)
    (p : CircuitSignedDataPackage) : Address :=
  let res := p.ecrecover env
  Address.from_pubkey (natToBeBytes 32 res.2.1) (natToBeBytes 32 res.2.2)

/-- Embedding of `CircuitSignedDataPackage::check_by_address`: recovery
success flag and coordinates, candidate address from `(x, y)`, equality
with the expected guardian, and the AND of the equality bit with the
success bit. -/
def CircuitSignedDataPackage.check_by_address (env : Env)
    (p : CircuitSignedDataPackage) (guardian : Address) : RResult Bool :=
  let res := p.ecrecover env
  let successful := res.1
  let address := p.recovered_address env
  let is_matched := guardian.equals address
  Except.ok (is_matched && successful)

/-- In-circuit aggregate (`CircuitSignedPrice<E, N>`): `N` signed
packages and `N` guardian addresses. -/
structure CircuitSignedPrice (n : Nat) where
  signed_data_packages : List CircuitSignedDataPackage
  guardians : List Address
  h_packages : signed_data_packages.length = n
  h_guardians : guardians.length = n

/-- Embedding of `CircuitSignedPrice::check_by_addresses`: initializes
the validity bit to the constant `true` and, for `i` from `0` to
`N - 1`, ANDs in the per-signer bit of pair `i`, short-circuiting on a
gadget error as the `?` operator does. -/
def CircuitSignedPrice.check_by_addresses {n : Nat} (env : Env)
    (sp : CircuitSignedPrice n) : RResult Bool :=
  (List.range n).foldlM (fun is_valid i => do
    let current ← (sp.signed_data_packages.getD i default).check_by_address env
      (sp.guardians.getD i default)
    return (is_valid && current)) true

/-- Per-signer validity bit computed by `check_by_address`: the address
equality bit ANDed with the recovery success bit. -/
def check_bit (env : Env) (p : CircuitSignedDataPackage) (g : Address) : Bool :=
  g.equals (p.recovered_address env) && (p.ecrecover env).1

/-- Environment whose recovery gadget depends on the recovery id: it
reports success and returns the allocated recovery id as the x
coordinate. The real secp256k1 gadget also distinguishes the two
recovery ids (they select the two candidate public keys). -/
def envRecidDependent : Env := ⟨fun sig _ => (true, sig.v, 0)⟩

/-- Data package with no data points, used as a fixed witness. -/
def emptyPackage : DataPackage := { data_points := [], timestamp := 0 }

/-- Check whether a Rust result is a success. -/
def isOk {α : Type} : RResult α → Bool
  | Except.ok _ => true
  | _ => false

/-- Check whether a Rust result is a typed `SynthesisError` return (as
opposed to a success, a panic or an assertion failure). -/
def isTypedFailure {α : Type} : RResult α → Bool
  | Except.error (Failure.synthesisErr _) => true
  | _ => false

/-- Fixture package of the spec and of the repository's
`test_serialize_and_hash` test: data points BTC 20000 and ETH 1000,
timestamp 1654353400000. -/
def fixturePackage : DataPackage :=
  { data_points := [ { data_feed_id := "BTC", value := "20000" },
                     { data_feed_id := "ETH", value := "1000" } ]
    timestamp := 1654353400000 }

/-- Digest string the spec writes for the fixture package; it has 63
hex characters. -/
def specClaimedDigestHex : String :=
  "e27cdb508629d3bbbb93739f48f282e89374eb5ea105cf519abd68a249cc207"

/-- String of 64 zero hex characters, decoding to 32 zero bytes. -/
def hexZeros64 : String :=
  "0000000000000000000000000000000000000000000000000000000000000000"

/-- Fixture package with its two data points swapped, a permutation of
`fixturePackage`. -/
def permutedFixturePackage : DataPackage :=
  { data_points := [ { data_feed_id := "ETH", value := "1000" },
                     { data_feed_id := "BTC", value := "20000" } ]
    timestamp := 1654353400000 }

/-! ## Helper lemmas -/

theorem check_by_address_ok (env : Env) (p : CircuitSignedDataPackage) (g : Address) :
    p.check_by_address env g = Except.ok (check_bit env p g) := rfl

theorem foldlM_ok_fun (g : Bool → Nat → Bool) :
    ∀ (l : List Nat) (init : Bool),
      (l.foldlM (fun acc i => (Except.ok (g acc i) : RResult Bool)) init)
        = Except.ok (l.foldl g init)
  | [], _ => rfl
  | a :: t, init => foldlM_ok_fun g t (g init a)

theorem foldl_and_all (f : Nat → Bool) :
    ∀ (l : List Nat) (init : Bool),
      l.foldl (fun acc i => acc && f i) init = (init && l.all f)
  | [], init => (Bool.and_true init).symm
  | a :: t, init => by
    rw [List.foldl_cons, foldl_and_all f t (init && f a), List.all_cons, Bool.and_assoc]

theorem check_by_addresses_eq_all (env : Env) {n : Nat} (sp : CircuitSignedPrice n) :
    sp.check_by_addresses env = Except.ok ((List.range n).all (fun i =>
      check_bit env (sp.signed_data_packages.getD i default)
        (sp.guardians.getD i default))) :=
  (foldlM_ok_fun _ (List.range n) true).trans
    (congrArg Except.ok ((foldl_and_all _ (List.range n) true).trans (Bool.true_and _)))

theorem foldl_append_serialize (l : List CircuitDataPoint) :
    ∀ acc : List Nat,
      l.foldl (fun acc dp => acc ++ dp.serialize) acc
        = acc ++ (l.map CircuitDataPoint.serialize).flatten := by
  induction l with
  | nil => intro acc; simp
  | cons a t ih => intro acc; simp [ih, List.append_assoc]

/-! ## Claims -/

/-- C1: for every arity `N` and every `CircuitSignedPrice` value,
`check_by_addresses` returns the logical AND of the `N` per-signer
validity bits, folded from `true` over indices `0 .. N-1`; for `N = 3`
the aggregate is `true` exactly when all three per-signer bits are
`true`, so any single `false` bit forces the aggregate to `false`. -/
theorem claim_C1_check_by_addresses_quorum_and :
    (∀ (n : Nat) (env : Env) (sp : CircuitSignedPrice n),
      sp.check_by_addresses env = Except.ok ((List.range n).all (fun i =>
        check_bit env (sp.signed_data_packages.getD i default)
          (sp.guardians.getD i default))))
  ∧ (∀ (env : Env) (sp : CircuitSignedPrice 3),
      sp.check_by_addresses env = Except.ok true ↔
        (check_bit env (sp.signed_data_packages.getD 0 default) (sp.guardians.getD 0 default) = true
        ∧ check_bit env (sp.signed_data_packages.getD 1 default) (sp.guardians.getD 1 default) = true
        ∧ check_bit env (sp.signed_data_packages.getD 2 default) (sp.guardians.getD 2 default) = true)) := by
  constructor
  · intro n env sp
    exact check_by_addresses_eq_all env sp
  · intro env sp
    rw [check_by_addresses_eq_all env sp]
    rw [show List.range 3 = [0, 1, 2] from rfl]
    simp [List.all_cons, Bool.and_assoc, and_assoc]

/-- C2: for every environment, `CircuitSignedDataPackage` and expected
guardian address, `check_by_address` returns (as an `ok`, never an
error) the boolean AND of the equality between the guardian and the
address derived from the recovered public-key coordinates with the
ECDSA-recovery success flag; a mismatched signer or an invalid
signature only yields a `false` boolean. -/
theorem claim_C2_check_by_address_and_of_match_and_success :
    ∀ (env : Env) (p : CircuitSignedDataPackage) (g : Address),
      p.check_by_address env g =
        Except.ok (g.equals (Address.from_pubkey
            (natToBeBytes 32 (p.ecrecover env).2.1)
            (natToBeBytes 32 (p.ecrecover env).2.2)) && (p.ecrecover env).1) := by
  intro env p g
  rfl

/-- C3: for every `CircuitDataPackage`, `serialize` is exactly the
concatenation of the data-point serializations in package order (each
`feed_id || value` with no separators), then the timestamp bytes, then
the value-byte-width field, then the data-point-count field, and the
package digest is Keccak-256 of exactly this byte string. -/
theorem claim_C3_serialize_layout_and_digest :
    ∀ p : CircuitDataPackage,
      p.serialize = (p.data_points.map (fun dp => dp.data_feed_id ++ dp.value)).flatten
          ++ p.timestamp ++ p.default_data_point_value_byte_size ++ p.data_points_count
      ∧ p.keccak256_hash = keccak256 p.serialize := by
  intro p
  refine ⟨?_, rfl⟩
  rw [CircuitDataPackage.serialize, foldl_append_serialize,
    show CircuitDataPoint.serialize = (fun dp => dp.data_feed_id ++ dp.value) from rfl,
    List.nil_append]

theorem set_append_singleton : ∀ (pre : List Nat) (b x : Nat),
    (pre ++ [b]).set pre.length x = pre ++ [x]
  | [], _, _ => rfl
  | a :: t, b, x => congrArg (a :: ·) (set_append_singleton t b x)

theorem getD_append_singleton : ∀ (pre : List Nat) (b : Nat),
    (pre ++ [b]).getD pre.length 0 = b
  | [], _ => rfl
  | _ :: t, b => getD_append_singleton t b

theorem from_bytes_witness_append (pre : List Nat) (x : Nat) (h : pre.length = 64) :
    Signature.from_bytes_witness (pre ++ [x]) =
      { r := pre.take 32, s := (pre.drop 32).take 32, v := x } := by
  have h32 : (32 : Nat) ≤ pre.length := by omega
  have h32d : (32 : Nat) ≤ (pre.drop 32).length := by simp [h]
  have hx : (pre ++ [x]).getD 64 0 = x := by rw [← h]; exact getD_append_singleton pre x
  rw [Signature.from_bytes_witness, List.take_append_of_le_length h32,
    List.drop_append_of_le_length h32, List.take_append_of_le_length h32d, hx]

theorem from_witness_eq (w : DataPackage) (pre : List Nat) (b : Nat) (h : pre.length = 64) :
    CircuitSignedDataPackage.from_witness w (pre ++ [b]) =
      { data_package := CircuitDataPackage.from_witness w
        signature := { r := pre.take 32
                       s := (pre.drop 32).take 32
                       v := if 27 ≤ b then b - 27 else b } } := by
  have hb : (pre ++ [b]).getD 64 0 = b := by rw [← h]; exact getD_append_singleton pre b
  rw [CircuitSignedDataPackage.from_witness]
  by_cases hc : 27 ≤ b
  · simp only [hb, if_pos hc]
    rw [show (pre ++ [b]).set 64 (b - 27) = pre ++ [b - 27] by
        rw [← h]; exact set_append_singleton pre b (b - 27),
      from_bytes_witness_append pre (b - 27) h]
  · simp only [hb, if_neg hc]
    rw [from_bytes_witness_append pre b h]

/-- C10: `CircuitSignedDataPackage::from_witness` accepts every value of
the trailing recovery-id byte: for a 65-byte signature witness whose
trailing byte `b` is at least 27 the allocated signature carries
`b - 27` (so 29 becomes 2 and 255 becomes 228, not only 27 and 28 being
remapped), and a trailing byte below 27 is passed through unchanged; no
value of `b` is rejected. -/
theorem claim_C10_recovery_id_byte_accepts_all :
    (∀ (w : DataPackage) (pre : List Nat) (b : Nat), pre.length = 64 →
      (CircuitSignedDataPackage.from_witness w (pre ++ [b])).signature.v
        = if 27 ≤ b then b - 27 else b)
  ∧ (∀ (w : DataPackage) (pre : List Nat), pre.length = 64 →
      (CircuitSignedDataPackage.from_witness w (pre ++ [29])).signature.v = 2
      ∧ (CircuitSignedDataPackage.from_witness w (pre ++ [255])).signature.v = 228
      ∧ (CircuitSignedDataPackage.from_witness w (pre ++ [26])).signature.v = 26) := by
  constructor
  · intro w pre b h
    rw [from_witness_eq w pre b h]
  · intro w pre h
    refine ⟨?_, ?_, ?_⟩ <;> (rw [from_witness_eq w pre _ h]; rfl)

/-- Witness for C10 at a concrete 65-byte signature with trailing byte
29 over an empty data package. -/
theorem claim_C10_witness :
    (List.replicate 64 0 : List Nat).length = 64
    ∧ (CircuitSignedDataPackage.from_witness { data_points := [], timestamp := 0 }
        (List.replicate 64 0 ++ [29])).signature.v = 2 :=
  ⟨by decide,
   (claim_C10_recovery_id_byte_accepts_all.2 { data_points := [], timestamp := 0 }
      (List.replicate 64 0) (by decide)).1⟩

/-- Counterexample to C5: trailing bytes 27 and 28 normalize to the
distinct recovery ids 0 and 1, and an admissible recovery environment
maps them to different recovered addresses. -/
theorem claim_C5_counterexample :
    (CircuitSignedDataPackage.from_witness emptyPackage
        (List.replicate 64 0 ++ [27])).recovered_address envRecidDependent
      ≠ (CircuitSignedDataPackage.from_witness emptyPackage
        (List.replicate 64 0 ++ [28])).recovered_address envRecidDependent := by decide

/-- C5 amended: two 65-byte signature witnesses that agree on the first
64 bytes and whose trailing bytes normalize to the same recovery id
(`b - 27` when `b ≥ 27`, else `b`; so 0 pairs with 27 and 1 pairs with
28, not 27 with 28) allocate identical `CircuitSignedDataPackage`
values and recover the same address in every environment. -/
theorem claim_C5_same_normalized_recovery_id_same_address :
    ∀ (env : Env) (w : DataPackage) (pre : List Nat) (b₁ b₂ : Nat),
      pre.length = 64 →
      (if 27 ≤ b₁ then b₁ - 27 else b₁) = (if 27 ≤ b₂ then b₂ - 27 else b₂) →
      CircuitSignedDataPackage.from_witness w (pre ++ [b₁])
          = CircuitSignedDataPackage.from_witness w (pre ++ [b₂])
      ∧ (CircuitSignedDataPackage.from_witness w (pre ++ [b₁])).recovered_address env
          = (CircuitSignedDataPackage.from_witness w (pre ++ [b₂])).recovered_address env := by
  intro env w pre b₁ b₂ h hb
  have he : CircuitSignedDataPackage.from_witness w (pre ++ [b₁])
      = CircuitSignedDataPackage.from_witness w (pre ++ [b₂]) := by
    rw [from_witness_eq w pre b₁ h, from_witness_eq w pre b₂ h, hb]
  exact ⟨he, congrArg (CircuitSignedDataPackage.recovered_address env) he⟩

/-- Witness for the amended C5 at trailing bytes 0 and 27, which share
the normalized recovery id 0. -/
theorem claim_C5_witness :
    (List.replicate 64 0 : List Nat).length = 64
    ∧ (CircuitSignedDataPackage.from_witness emptyPackage
        (List.replicate 64 0 ++ [0])).recovered_address envRecidDependent
      = (CircuitSignedDataPackage.from_witness emptyPackage
        (List.replicate 64 0 ++ [27])).recovered_address envRecidDependent :=
  ⟨by decide,
   (claim_C5_same_normalized_recovery_id_same_address envRecidDependent emptyPackage
      (List.replicate 64 0) 0 27 (by decide) (by decide)).2⟩

/-- C4 (code-bug evaluation): `bytes_be_to_num` compares the byte count
of its input against a capacity measured in bits, so the 32-byte input
of all 0xFF bytes passes the assertion although its 256 bits exceed the
253-bit capacity of the BN254 scalar field, and the returned field
element is the value reduced modulo the field — a silent truncation the
claim (and the spec) rule out. A 33-byte input also passes the
assertion and fails only through the `32 - len` slice panic, not
through the assertion. -/
theorem claim_C4_bytes_be_to_num_silently_reduces :
    bytes_be_to_num bn254Fr (List.replicate 32 255)
        = Except.ok ((2 ^ 256 - 1) % bn254Fr)
    ∧ (2 ^ 256 - 1) % bn254Fr ≠ 2 ^ 256 - 1
    ∧ fieldCapacity bn254Fr = 253
    ∧ bytes_be_to_num bn254Fr (List.replicate 33 0)
        = Except.error (Failure.runtimePanic "32 - len underflows") :=
  ⟨rfl, by decide, by decide, rfl⟩

/-- Counterexample to C7: on the input "0z" hex decoding fails, and
`uint256_from_be_hex_str` fails not with a typed error return but with
a panic (the `unwrap` on `hex::decode`). -/
theorem claim_C7_counterexample :
    isOk (uint256_from_be_hex_str "0z") = false
    ∧ isTypedFailure (uint256_from_be_hex_str "0z") = false := ⟨rfl, rfl⟩

/-- C7 amended: `uint256_from_be_hex_str` succeeds exactly on strings
that hex-decode to 32 bytes, returning their big-endian value; on every
other input it fails, but through a panic (the `unwrap` on the hex
decoding, or the `unwrap` on the conversion to a 32-byte array), never
through a typed error return. -/
theorem claim_C7_hex_str_failure_is_panic :
    ∀ s : String,
      (∀ bytes, hexDecode s = some bytes → bytes.length = 32 →
        uint256_from_be_hex_str s = Except.ok (beVal bytes))
      ∧ (hexDecode s = none →
        uint256_from_be_hex_str s = Except.error (Failure.runtimePanic "hex decode unwrap"))
      ∧ (∀ bytes, hexDecode s = some bytes → bytes.length ≠ 32 →
        uint256_from_be_hex_str s = Except.error (Failure.runtimePanic "try_into unwrap"))
      ∧ isTypedFailure (uint256_from_be_hex_str s) = false := by
  intro s
  refine ⟨?_, ?_, ?_, ?_⟩
  · intro bytes hd hl
    rw [uint256_from_be_hex_str, hd]
    simp [hl]
  · intro hd
    rw [uint256_from_be_hex_str, hd]
  · intro bytes hd hl
    rw [uint256_from_be_hex_str, hd]
    simp [hl]
  · rw [uint256_from_be_hex_str]
    cases hexDecode s with
    | none => rfl
    | some bytes =>
      by_cases h : bytes.length = 32 <;> simp [h, isTypedFailure]

/-- Witness for the amended C7: 64 zero hex characters decode to 32
zero bytes and succeed; "0z" fails to decode and panics. -/
theorem claim_C7_witness :
    hexDecode hexZeros64 = some (List.replicate 32 0)
    ∧ uint256_from_be_hex_str hexZeros64 = Except.ok (beVal (List.replicate 32 0))
    ∧ hexDecode "0z" = none
    ∧ uint256_from_be_hex_str "0z"
        = Except.error (Failure.runtimePanic "hex decode unwrap") :=
  ⟨by decide,
   (claim_C7_hex_str_failure_is_panic hexZeros64).1 (List.replicate 32 0) (by decide) (by decide),
   by decide,
   (claim_C7_hex_str_failure_is_panic "0z").2.1 (by decide)⟩

/-- Counterexample to C6: the Keccak-256 digest of the fixture package
does not hex-render to the 63-character string written in the spec (a
32-byte digest renders to 64 hex characters). -/
theorem claim_C6_counterexample :
    bytes_to_hex (CircuitDataPackage.from_witness fixturePackage).keccak256_hash
      ≠ specClaimedDigestHex := by decide

/-- C6 amended: the fixture package digests to
e27cdb508629d3bbbb93739f48f282e89374eb5ea105cf519abd68a249cc2070
(64 hex characters, 32 bytes), the value asserted by the repository's
own `test_serialize_and_hash` test; the spec's string dropped the final
hex character. -/
theorem claim_C6_fixture_digest :
    bytes_to_hex (CircuitDataPackage.from_witness fixturePackage).keccak256_hash
      = "e27cdb508629d3bbbb93739f48f282e89374eb5ea105cf519abd68a249cc2070"
    ∧ (CircuitDataPackage.from_witness fixturePackage).keccak256_hash.length = 32 :=
  ⟨by decide, by decide⟩

theorem bigUintStep_none (l : List Char) : l.foldl bigUintStep none = none := by
  induction l with
  | nil => rfl
  | cons a t ih => exact ih

theorem bigUintStep_poison (c : Char) (hd : ¬(48 ≤ c.toNat ∧ c.toNat ≤ 57))
    (hu : c ≠ '_') (a : Nat) : bigUintStep (some a) c = none := by
  simp only [bigUintStep]
  rw [if_neg hu]
  simp only [bigDigitVal]
  rw [if_neg hd]
  by_cases h1 : 97 ≤ c.toNat ∧ c.toNat ≤ 122
  · rw [if_pos h1]
    simp only [ite_eq_right_iff]
    omega
  · rw [if_neg h1]
    by_cases h2 : 65 ≤ c.toNat ∧ c.toNat ≤ 90
    · rw [if_pos h2]
      simp only [ite_eq_right_iff]
      omega
    · rw [if_neg h2]

theorem foldl_bigUintStep_poison (c : Char) (hd : ¬(48 ≤ c.toNat ∧ c.toNat ≤ 57))
    (hu : c ≠ '_') :
    ∀ (l : List Char) (acc : Option Nat), c ∈ l → l.foldl bigUintStep acc = none := by
  intro l
  induction l with
  | nil => intro acc hc; exact absurd hc (List.not_mem_nil c)
  | cons a t ih =>
    intro acc hc
    rw [List.foldl_cons]
    rcases List.mem_cons.mp hc with h | h
    · subst h
      cases acc with
      | none => exact bigUintStep_none t
      | some x => rw [bigUintStep_poison c hd hu x]; exact bigUintStep_none t
    · exact ih _ h

theorem mem_stripLeadingPlus (c : Char) (l : List Char) (hc : c ∈ l) (hp : c ≠ '+') :
    c ∈ stripLeadingPlus l := by
  cases l with
  | nil => exact absurd hc (List.not_mem_nil c)
  | cons a rest =>
    simp only [stripLeadingPlus]
    by_cases h : a = '+' ∧ rest.head? ≠ some '+'
    · rw [if_pos h]
      rcases List.mem_cons.mp hc with he | he
      · exact absurd (he.trans h.1) hp
      · exact he
    · rw [if_neg h]
      exact hc

theorem stripLeadingPlus_subset (c : Char) (l : List Char) (hc : c ∈ stripLeadingPlus l) :
    c ∈ l := by
  cases l with
  | nil => exact hc
  | cons a rest =>
    simp only [stripLeadingPlus] at hc
    by_cases h : a = '+' ∧ rest.head? ≠ some '+'
    · rw [if_pos h] at hc
      exact List.mem_cons_of_mem a hc
    · rw [if_neg h] at hc
      exact hc

theorem bigUintFromStr_none_of_poison (s : String) (c : Char) (hc : c ∈ s.data)
    (hd : ¬(48 ≤ c.toNat ∧ c.toNat ≤ 57)) (hu : c ≠ '_') (hp : c ≠ '+') :
    bigUintFromStr s = none := by
  unfold bigUintFromStr
  by_cases h1 : (stripLeadingPlus s.data).isEmpty
  · rw [if_pos h1]
  · rw [if_neg h1]
    by_cases h2 : (stripLeadingPlus s.data).head? = some '_'
    · rw [if_pos h2]
    · rw [if_neg h2]
      exact foldl_bigUintStep_poison c hd hu _ _ (mem_stripLeadingPlus c s.data hc hp)

theorem foldl_bigUintStep_digits :
    ∀ (l : List Char) (a : Nat), (∀ c ∈ l, 48 ≤ c.toNat ∧ c.toNat ≤ 57) →
      l.foldl bigUintStep (some a)
        = some (l.foldl (fun x c => 10 * x + (c.toNat - 48)) a) := by
  intro l
  induction l with
  | nil => intro a _; rfl
  | cons c t ih =>
    intro a hall
    have hc := hall c (List.mem_cons_self c t)
    have hu : c ≠ '_' := by
      intro h
      rw [h] at hc
      exact absurd hc.2 (by decide)
    rw [List.foldl_cons, List.foldl_cons]
    rw [show bigUintStep (some a) c = some (10 * a + (c.toNat - 48)) by
      simp only [bigUintStep]
      rw [if_neg hu]
      simp only [bigDigitVal]
      rw [if_pos hc]
      simp only [if_pos (show c.toNat - 48 < 10 by omega)]]
    exact ih _ (fun d hd => hall d (List.mem_cons_of_mem c hd))

theorem bigUintFromStr_digits (s : String) (hne : s.data ≠ [])
    (hall : ∀ c ∈ s.data, 48 ≤ c.toNat ∧ c.toNat ≤ 57) :
    bigUintFromStr s = some (decVal s) := by
  unfold bigUintFromStr
  have hstrip : stripLeadingPlus s.data = s.data := by
    cases hsd : s.data with
    | nil => rfl
    | cons a rest =>
      simp only [stripLeadingPlus]
      have ha : 48 ≤ a.toNat ∧ a.toNat ≤ 57 := by
        have := hall a
        rw [hsd] at this
        exact this (List.mem_cons_self a rest)
      rw [if_neg]
      intro hcon
      rw [hcon.1] at ha
      exact absurd ha.1 (by decide)
  rw [hstrip]
  rw [if_neg (by simpa [List.isEmpty_iff] using hne)]
  rw [if_neg]
  · exact foldl_bigUintStep_digits s.data 0 hall
  · intro hcon
    cases hsd : s.data with
    | nil => exact hne hsd
    | cons a rest =>
      rw [hsd] at hcon
      have ha : 48 ≤ a.toNat ∧ a.toNat ≤ 57 := by
        have := hall a
        rw [hsd] at this
        exact this (List.mem_cons_self a rest)
      have : a = '_' := by
        simpa using hcon
      rw [this] at ha
      exact absurd ha.2 (by decide)

/-- Counterexample to C8: the input "+1" contains the non-digit
character plus, yet `uint256_and_u8_chunks_from_str` (and
`uint256_from_str`) successfully allocate the numeral 1 instead of
returning a format error, because `BigUint::from_str` accepts a single
leading plus sign. -/
theorem claim_C8_counterexample :
    ("+1".data.all Char.isDigit = false)
    ∧ uint256_and_u8_chunks_from_str "+1" = Except.ok (1, u8ChunksLE 1)
    ∧ uint256_from_str "+1" = Except.ok 1 :=
  ⟨by decide, rfl, rfl⟩

/-- C8 amended: a string containing any character other than an ASCII
digit, an underscore or a plus sign makes
`uint256_and_u8_chunks_from_str` return a typed format error (never a
wrong numeral); a nonempty all-digit string below 2^256 returns the
correct value with its 32 byte chunks. (`BigUint::from_str` additionally
accepts a single leading plus sign and skips non-leading underscores,
the deviations the counterexample exhibits.) -/
theorem claim_C8_decimal_parse :
    (∀ (s : String) (c : Char), c ∈ s.data →
      ¬(48 ≤ c.toNat ∧ c.toNat ≤ 57) → c ≠ '_' → c ≠ '+' →
      uint256_and_u8_chunks_from_str s
        = Except.error (Failure.synthesisErr "BigUint parse error"))
  ∧ (∀ s : String, s.data ≠ [] → (∀ c ∈ s.data, 48 ≤ c.toNat ∧ c.toNat ≤ 57) →
      decVal s < 2 ^ 256 →
      uint256_and_u8_chunks_from_str s
        = Except.ok (decVal s, u8ChunksLE (decVal s))) := by
  constructor
  · intro s c hc hd hu hp
    rw [uint256_and_u8_chunks_from_str, bigUintFromStr_none_of_poison s c hc hd hu hp]
  · intro s hne hall hlt
    rw [uint256_and_u8_chunks_from_str, bigUintFromStr_digits s hne hall]
    simp only [if_pos hlt]

/-- Witness for the amended C8: "12" parses to 12 with its byte chunks,
and "|" (not a digit, underscore or plus) yields the typed format
error. -/
theorem claim_C8_witness :
    uint256_and_u8_chunks_from_str "12" = Except.ok (decVal "12", u8ChunksLE (decVal "12"))
    ∧ uint256_and_u8_chunks_from_str "|"
        = Except.error (Failure.synthesisErr "BigUint parse error") :=
  ⟨claim_C8_decimal_parse.2 "12" (by decide) (by decide) (by decide),
   claim_C8_decimal_parse.1 "|" '|' (by decide) (by decide) (by decide) (by decide)⟩

theorem beVal_foldl_init : ∀ (l : List Nat) (init : Nat),
    l.foldl (fun a b => a * 256 + b) init = init * 256 ^ l.length + beVal l := by
  intro l
  induction l with
  | nil => intro init; simp [beVal]
  | cons b t ih =>
    intro init
    rw [List.foldl_cons, ih (init * 256 + b),
      show beVal (b :: t) = b * 256 ^ t.length + beVal t from by
        rw [beVal, List.foldl_cons, show (0 : Nat) * 256 + b = b by ring]
        exact ih b,
      List.length_cons]
    ring

theorem beVal_cons (b : Nat) (t : List Nat) :
    beVal (b :: t) = b * 256 ^ t.length + beVal t := by
  rw [beVal, List.foldl_cons, show (0 : Nat) * 256 + b = b by ring]
  exact beVal_foldl_init t b

theorem beVal_lt : ∀ l : List Nat, (∀ b ∈ l, b < 256) → beVal l < 256 ^ l.length := by
  intro l
  induction l with
  | nil => intro _; simp [beVal]
  | cons b t ih =>
    intro h
    have hb : b < 256 := h b (List.mem_cons_self b t)
    have ht := ih (fun x hx => h x (List.mem_cons_of_mem b hx))
    rw [beVal_cons, List.length_cons]
    calc b * 256 ^ t.length + beVal t
        < b * 256 ^ t.length + 256 ^ t.length := Nat.add_lt_add_left ht _
      _ = (b + 1) * 256 ^ t.length := by ring
      _ ≤ 256 * 256 ^ t.length := Nat.mul_le_mul_right _ hb
      _ = 256 ^ (t.length + 1) := by rw [pow_succ]; ring

theorem beVal_inj : ∀ l₁ l₂ : List Nat, l₁.length = l₂.length →
    (∀ b ∈ l₁, b < 256) → (∀ b ∈ l₂, b < 256) → beVal l₁ = beVal l₂ → l₁ = l₂ := by
  intro l₁
  induction l₁ with
  | nil =>
    intro l₂ hl _ _ _
    cases l₂ with
    | nil => rfl
    | cons b t => simp at hl
  | cons a t₁ ih =>
    intro l₂ hl h₁ h₂ hv
    cases l₂ with
    | nil => simp at hl
    | cons b t₂ =>
      have hlen : t₁.length = t₂.length := by simpa using hl
      rw [beVal_cons, beVal_cons, hlen] at hv
      have hr₁ : beVal t₁ < 256 ^ t₂.length :=
        hlen ▸ beVal_lt t₁ (fun x hx => h₁ x (List.mem_cons_of_mem a hx))
      have hr₂ : beVal t₂ < 256 ^ t₂.length :=
        beVal_lt t₂ (fun x hx => h₂ x (List.mem_cons_of_mem b hx))
      have hK : (0 : Nat) < 256 ^ t₂.length := pow_pos (by norm_num) _
      have hab : a = b := by
        have h1 : (a * 256 ^ t₂.length + beVal t₁) / 256 ^ t₂.length = a := by
          rw [mul_comm, Nat.mul_add_div hK, Nat.div_eq_of_lt hr₁, add_zero]
        have h2 : (b * 256 ^ t₂.length + beVal t₂) / 256 ^ t₂.length = b := by
          rw [mul_comm, Nat.mul_add_div hK, Nat.div_eq_of_lt hr₂, add_zero]
        rw [← h1, ← h2, hv]
      subst hab
      have ht : beVal t₁ = beVal t₂ := by omega
      rw [ih t₂ hlen (fun x hx => h₁ x (List.mem_cons_of_mem a hx))
        (fun x hx => h₂ x (List.mem_cons_of_mem a hx)) ht]

theorem natToBeBytes_length (n v : Nat) : (natToBeBytes n v).length = n := by
  simp [natToBeBytes]

theorem natToBeBytes_lt (n v : Nat) : ∀ b ∈ natToBeBytes n v, b < 256 := by
  intro b hb
  simp only [natToBeBytes, List.mem_map] at hb
  obtain ⟨i, _, rfl⟩ := hb
  have h := Nat.and_le_right (n := v >>> (8 * (n - 1 - i))) (m := 255)
  omega

theorem serialize_feed_id_length (dp : DataPoint) (h : dp.wf) :
    dp.serialize_feed_id.length = 32 := by
  have := h.1
  simp only [DataPoint.serialize_feed_id, padRight, List.length_append,
    List.length_replicate, List.length_map]
  omega

theorem serialize_feed_id_lt (dp : DataPoint) (h : dp.wf) :
    ∀ b ∈ dp.serialize_feed_id, b < 256 := by
  intro b hb
  simp only [DataPoint.serialize_feed_id, padRight, List.mem_append, List.mem_map,
    List.mem_replicate] at hb
  rcases hb with ⟨c, hc, rfl⟩ | ⟨_, rfl⟩
  · exact h.2 c hc
  · norm_num

theorem from_witness_dp_eq_of_key (a b : DataPoint) (ha : a.wf) (hb : b.wf)
    (hk : dpKey a = dpKey b) :
    CircuitDataPoint.from_witness a = CircuitDataPoint.from_witness b := by
  have heq : a.serialize_feed_id ++ a.serialize_value
      = b.serialize_feed_id ++ b.serialize_value := by
    apply beVal_inj _ _ ?_ ?_ ?_ hk
    · rw [List.length_append, List.length_append, serialize_feed_id_length a ha,
        serialize_feed_id_length b hb]
      simp [DataPoint.serialize_value, natToBeBytes_length]
    · intro x hx
      rcases List.mem_append.mp hx with h | h
      · exact serialize_feed_id_lt a ha x h
      · exact natToBeBytes_lt _ _ x h
    · intro x hx
      rcases List.mem_append.mp hx with h | h
      · exact serialize_feed_id_lt b hb x h
      · exact natToBeBytes_lt _ _ x h
  have hsp := List.append_inj heq (by
    rw [serialize_feed_id_length a ha, serialize_feed_id_length b hb])
  rw [CircuitDataPoint.from_witness, CircuitDataPoint.from_witness, hsp.1, hsp.2]

theorem map_eq_of_map_key_eq {α β : Type} (k : α → Nat) (g : α → β) (P : α → Prop)
    (hkg : ∀ a b, P a → P b → k a = k b → g a = g b) :
    ∀ l₁ l₂ : List α, (∀ a ∈ l₁, P a) → (∀ a ∈ l₂, P a) →
      l₁.map k = l₂.map k → l₁.map g = l₂.map g := by
  intro l₁
  induction l₁ with
  | nil =>
    intro l₂ _ _ h
    cases l₂ with
    | nil => rfl
    | cons b t => simp at h
  | cons a t ih =>
    intro l₂ h₁ h₂ h
    cases l₂ with
    | nil => simp at h
    | cons b t₂ =>
      simp only [List.map_cons, List.cons.injEq] at h ⊢
      exact ⟨hkg a b (h₁ a (List.mem_cons_self a t)) (h₂ b (List.mem_cons_self b t₂)) h.1,
        ih t₂ (fun x hx => h₁ x (List.mem_cons_of_mem a hx))
          (fun x hx => h₂ x (List.mem_cons_of_mem b hx)) h.2⟩

theorem sorted_keys_eq (l₁ l₂ : List DataPoint) (hp : l₁.Perm l₂) :
    (l₁.insertionSort (fun a b => dpKey a ≤ dpKey b)).map dpKey
      = (l₂.insertionSort (fun a b => dpKey a ≤ dpKey b)).map dpKey := by
  have hperm : ((l₁.insertionSort (fun a b => dpKey a ≤ dpKey b)).map dpKey).Perm
      ((l₂.insertionSort (fun a b => dpKey a ≤ dpKey b)).map dpKey) :=
    ((List.perm_insertionSort _ l₁).trans
      (hp.trans (List.perm_insertionSort _ l₂).symm)).map dpKey
  have hs₁ : List.Sorted (· ≤ ·)
      ((l₁.insertionSort (fun a b => dpKey a ≤ dpKey b)).map dpKey) :=
    List.pairwise_map.mpr (List.sorted_insertionSort _ l₁)
  have hs₂ : List.Sorted (· ≤ ·)
      ((l₂.insertionSort (fun a b => dpKey a ≤ dpKey b)).map dpKey) :=
    List.pairwise_map.mpr (List.sorted_insertionSort _ l₂)
  exact List.eq_of_perm_of_sorted hperm hs₁ hs₂

/-- C9: building a `CircuitDataPackage` from a package and from any
permutation of its (well-formed) data points yields equal circuit
packages — the canonical sort in `from_witness` cancels the input
order — hence identical serializations and identical Keccak-256
digests. -/
theorem claim_C9_digest_permutation_invariant :
    ∀ w₁ w₂ : DataPackage,
      w₁.data_points.Perm w₂.data_points →
      w₁.timestamp = w₂.timestamp →
      (∀ dp ∈ w₁.data_points, dp.wf) →
      CircuitDataPackage.from_witness w₁ = CircuitDataPackage.from_witness w₂
      ∧ (CircuitDataPackage.from_witness w₁).serialize
          = (CircuitDataPackage.from_witness w₂).serialize
      ∧ (CircuitDataPackage.from_witness w₁).keccak256_hash
          = (CircuitDataPackage.from_witness w₂).keccak256_hash := by
  intro w₁ w₂ hp hts hwf
  have hwf₂ : ∀ dp ∈ w₂.data_points, dp.wf := fun dp hdp => hwf dp (hp.mem_iff.mpr hdp)
  have hdps : w₁.sorted_data_points.map CircuitDataPoint.from_witness
      = w₂.sorted_data_points.map CircuitDataPoint.from_witness := by
    apply map_eq_of_map_key_eq dpKey CircuitDataPoint.from_witness DataPoint.wf
      from_witness_dp_eq_of_key
    · intro x hx
      exact hwf x (by
        rw [DataPackage.sorted_data_points] at hx
        exact (List.mem_insertionSort _).mp hx)
    · intro x hx
      exact hwf₂ x (by
        rw [DataPackage.sorted_data_points] at hx
        exact (List.mem_insertionSort _).mp hx)
    · exact sorted_keys_eq w₁.data_points w₂.data_points hp
  have hfw : CircuitDataPackage.from_witness w₁ = CircuitDataPackage.from_witness w₂ := by
    simp only [CircuitDataPackage.from_witness, DataPackage.serialize_timestamp,
      DataPackage.serialize_data_points_count,
      DataPackage.serialize_default_data_point_byte_size, hts, hp.length_eq, hdps]
  exact ⟨hfw, congrArg CircuitDataPackage.serialize hfw,
    congrArg CircuitDataPackage.keccak256_hash hfw⟩

/-- Witness for C9: the fixture package and the same package with its
two data points swapped produce the same circuit digest. -/
theorem claim_C9_witness :
    fixturePackage.data_points.Perm permutedFixturePackage.data_points
    ∧ (CircuitDataPackage.from_witness fixturePackage).keccak256_hash
        = (CircuitDataPackage.from_witness permutedFixturePackage).keccak256_hash :=
  ⟨by decide,
   (claim_C9_digest_permutation_invariant fixturePackage permutedFixturePackage
      (by decide) rfl (by decide)).2.2⟩

end ZkOracle
